import Mathlib

/-!
Verification of the LLM_EVAL_Backend evaluation orchestrator.

This file shallowly embeds the Go source of the repository:

* `src/agent/agent.go` — the per-scenario run loop (`Agent.Run`), the
  hero-card fallback (`extractQuickRepliesFromAttachments`) and the
  bounded-concurrency scheduler (`Agent.ParallelRun`);
* `src/llm/gemini_client.go` — the retry/backoff loop of the package-level
  `GenerateContentREST`;
* `src/llm/cohere_client.go` — the post-status handling of
  `CohereClient.GenerateContentREST` and `CohereClient.GenerateJudgmentREST`;
* the semantics of Go's `encoding/json.Unmarshal` on the `LLMOutput`
  struct, as exercised by the OpenAI and Cohere clients.

Network calls are modelled by oracles (functions from attempt / turn
indices to outcomes); machine integers (`int16` turn counters) are
modelled as `Int` with an explicit 16-bit wrap on the increment.
-/

/-! ## Dynamic JSON-like values

Go's `interface{}` values produced by `encoding/json` for the Knovvu
attachment payloads: strings, booleans, numbers, null, arrays and
`map[string]interface{}` objects (modelled as association lists). -/

inductive JValue where
  | null : JValue
  | str : String → JValue
  | jbool : Bool → JValue
  | num : Int → JValue
  | arr : List JValue → JValue
  | obj : List (String × JValue) → JValue
deriving Repr

/-- Go map indexing `m[k]` on a `map[string]interface{}`: exact key match,
`nil` (here `none`) when absent. -/
def mapGet (m : List (String × JValue)) (k : String) : Option JValue :=
  (m.find? (fun p => p.1 == k)).map (·.2)

/-- Go type assertion `v.(string)`: the string when `v` is a string,
failure otherwise. -/
def asString : Option JValue → Option String
  | some (.str s) => some s
  | _ => none

/-- The Go comparison `attMap["contentType"] == "application/vnd.microsoft.card.hero"`
(an `interface{}`-to-string equality: true only for a string of that value). -/
def isHeroContentType : Option JValue → Bool
  | some (.str s) => s == "application/vnd.microsoft.card.hero"
  | _ => false

/-! ## Knovvu reply handling (`src/agent/agent.go`) -/

/-- One line of the options list built for a hero-card button
(`agent.go:60-68`): a non-map button is skipped (`continue`), and a failed
string assertion on `title`/`value` yields `""`. -/
def buttonLine (btn : JValue) : Option String :=
  match btn with
  | .obj btnMap =>
      let title := (asString (mapGet btnMap "title")).getD ""
      let value := (asString (mapGet btnMap "value")).getD ""
      some ("  - " ++ title ++ " (value: " ++ value ++ ")")
  | _ => none

/-- `extractQuickRepliesFromAttachments` (`agent.go:43-78`): scans the
attachments for the first hero card with a non-empty button list and
flattens it into a prompt line plus an enumerated option list; returns
`""` when no attachment qualifies. -/
def extractQuickRepliesFromAttachments : List JValue → String
  | [] => ""
  | att :: rest =>
    match att with
    | .obj attMap =>
      if isHeroContentType (mapGet attMap "contentType") then
        match mapGet attMap "content" with
        | some (.obj content) =>
          let promptText := (asString (mapGet content "text")).getD ""
          match mapGet content "buttons" with
          | some (.arr buttons) =>
            if buttons.isEmpty then
              extractQuickRepliesFromAttachments rest
            else
              let quickReplies := buttons.filterMap buttonLine
              let header := if promptText ≠ "" then "Prompt: " ++ promptText ++ "\n" else ""
              header ++ "Options:\n" ++ String.intercalate "\n" quickReplies
          | _ => extractQuickRepliesFromAttachments rest
        | _ => extractQuickRepliesFromAttachments rest
      else
        extractQuickRepliesFromAttachments rest
    | _ => extractQuickRepliesFromAttachments rest

/-- The two fields of `knovvu.KnovvuResponse` that `Agent.Run` reads
(`Text` and `Attachments`); the remaining wire fields (`Id`, `Type`,
`Timestamp`, `Conversation`, `From`, `Recipient`, `ChannelId`,
`ChannelData`) are never consulted by the agent and are omitted. -/
structure KnovvuResponse where
  text : String
  attachments : List JValue
deriving Repr

/-- Derivation of the incoming reply text recorded per turn
(`agent.go:127-137`): the sentinel `"No response text found."` unless the
reply is non-nil and carries either a non-empty `Text` or a non-empty
attachment list whose hero-card flattening is non-empty. -/
def deriveVaResponse (knovvuResp : Option KnovvuResponse) : String :=
  match knovvuResp with
  | none => "No response text found."
  | some r =>
    if r.text ≠ "" then r.text
    else if r.attachments.length > 0 then
      let quickReplies := extractQuickRepliesFromAttachments r.attachments
      if quickReplies ≠ "" then quickReplies else "No response text found."
    else "No response text found."

/-- The concrete hero-card attachment of the C6 scenario: prompt
`"Pick one"` and buttons `A/a` and `B/b`. -/
def heroPickOne : JValue :=
  .obj [("contentType", .str "application/vnd.microsoft.card.hero"),
        ("content", .obj
          [("text", .str "Pick one"),
           ("buttons", .arr
             [.obj [("title", .str "A"), ("value", .str "a")],
              .obj [("title", .str "B"), ("value", .str "b")]])])]

/-! ## Structured generation outputs (`src/llm/gemini_client.go:38-47`) -/

/-- `llm.LLMOutput`: the schema-validated next-action object. -/
structure LLMOutput where
  nextMessage : String
  reasoning : String
  fulfilled : Bool
  confidence : String
  strategy : String
  safetyCheck : String
  errorLogs : List String
  adaptationNotes : String
deriving Repr, DecidableEq

/-- `llm.JudgmentResult`: the final verdict object.  The two score fields
are `float64` in Go; the program only decodes and prints them (no
arithmetic), so a rational carrier is faithful for every claim here. -/
structure JudgmentResult where
  judgement : String
  confidence : String
  evidenceSummary : String
  scenarioCompletionScore : Rat
  conversationQualityScore : Rat
deriving Repr, DecidableEq

/-! ## Go `encoding/json.Unmarshal` semantics on `LLMOutput`

The OpenAI and Cohere clients finish with
`json.Unmarshal([]byte(raw), &output)` (`openai_client.go:151`,
`cohere_client.go:190`).  Go's decoder leaves a struct field at its zero
value when the key is absent or the value is `null`, errors on a type
mismatch, ignores unknown keys, and matches keys by exact tag first and
case-insensitively otherwise.  We model that decoder on an
already-tokenised `JValue`. -/

/-- Character-wise lowering of a key (all JSON tags here are ASCII). -/
def lowerKey (s : String) : String :=
  ⟨s.data.map Char.toLower⟩

/-- Struct-field key resolution of `encoding/json`: exact tag match
preferred, case-insensitive match accepted. -/
def jsonFieldGet (fields : List (String × JValue)) (key : String) : Option JValue :=
  match fields.find? (fun p => p.1 == key) with
  | some p => some p.2
  | none => ((fields.find? (fun p => lowerKey p.1 == lowerKey key)).map (·.2))

/-- Decoding a JSON value into a `string` struct field: absent key or
`null` leaves the zero value `""`; a non-string value is a type error. -/
def jsonGetString (fields : List (String × JValue)) (key : String) : Except String String :=
  match jsonFieldGet fields key with
  | none => .ok ""
  | some .null => .ok ""
  | some (.str s) => .ok s
  | some _ => .error ("cannot unmarshal value into field " ++ key ++ " of type string")

/-- Decoding a JSON value into a `bool` struct field. -/
def jsonGetBool (fields : List (String × JValue)) (key : String) : Except String Bool :=
  match jsonFieldGet fields key with
  | none => .ok false
  | some .null => .ok false
  | some (.jbool b) => .ok b
  | some _ => .error ("cannot unmarshal value into field " ++ key ++ " of type bool")

/-- Decoding a JSON array into a `[]string` element-wise. -/
def decodeStringItems : List JValue → Except String (List String)
  | [] => .ok []
  | .str s :: rest => (decodeStringItems rest).map (fun l => s :: l)
  | .null :: rest => (decodeStringItems rest).map (fun l => "" :: l)
  | _ :: _ => .error "cannot unmarshal array element into type string"

/-- Decoding a JSON value into a `[]string` struct field. -/
def jsonGetStringList (fields : List (String × JValue)) (key : String) :
    Except String (List String) :=
  match jsonFieldGet fields key with
  | none => .ok []
  | some .null => .ok []
  | some (.arr xs) => decodeStringItems xs
  | some _ => .error ("cannot unmarshal value into field " ++ key ++ " of type list")

/-- `json.Unmarshal(raw, &output)` for `output : LLMOutput`
(`openai_client.go:149-153`, `cohere_client.go:189-192`): the top level
must be an object; each tagged field decodes independently; a missing
field is left at its zero value, never rejected.  (Go reports the first
error in document order; ours reports the first in field order — the
ok/error distinction, which is all the claims consult, coincides.) -/
def parseLLMOutput (v : JValue) : Except String LLMOutput :=
  match v with
  | .obj fields =>
    match jsonGetString fields "next_message" with
    | .error e => .error e
    | .ok nextMessage =>
    match jsonGetString fields "reasoning" with
    | .error e => .error e
    | .ok reasoning =>
    match jsonGetBool fields "fulfilled" with
    | .error e => .error e
    | .ok fulfilled =>
    match jsonGetString fields "confidence" with
    | .error e => .error e
    | .ok confidence =>
    match jsonGetString fields "strategy" with
    | .error e => .error e
    | .ok strategy =>
    match jsonGetString fields "safety_check" with
    | .error e => .error e
    | .ok safetyCheck =>
    match jsonGetStringList fields "error_logs" with
    | .error e => .error e
    | .ok errorLogs =>
    match jsonGetString fields "adaptation_notes" with
    | .error e => .error e
    | .ok adaptationNotes =>
      .ok ⟨nextMessage, reasoning, fulfilled, confidence, strategy, safetyCheck,
           errorLogs, adaptationNotes⟩
  | _ => .error "cannot unmarshal value into type LLMOutput"

/-! ## Cohere response post-processing (`src/llm/cohere_client.go`)

After a 200-status reply parses into `CohereChatResponse`, both Cohere
entry points read `chatResp.Message.Content[0].Text`.  The judgment path
guards the index (`cohere_client.go:315`); the next-action path does not
(`cohere_client.go:185`), so an empty content list there is an
out-of-range index — a Go runtime panic, modelled as `none`. -/

/-- One element of `CohereChatResponse.Message.Content`. -/
structure CohereContentItem where
  itemType : String
  text : String
deriving Repr, DecidableEq

/-- Extraction of the generated text in `CohereClient.GenerateContentREST`
(`cohere_client.go:185-192`): `Content[0]` is indexed with no length
guard, so an empty list panics (`none`); otherwise an empty `Text` is the
"empty text field" error and a non-empty one proceeds to the `LLMOutput`
unmarshal. -/
def cohereContentExtract (content : List CohereContentItem) :
    Option (Except String String) :=
  match content with
  | [] => none
  | c :: _ =>
    if c.text = "" then some (.error "empty text field in Cohere API response")
    else some (.ok c.text)

/-- Extraction of the generated text in `CohereClient.GenerateJudgmentREST`
(`cohere_client.go:315-321`): `len(Content) == 0 || Content[0].Text == ""`
is rejected as the "empty text field" error before any indexing panic can
occur. -/
def cohereJudgmentExtract (content : List CohereContentItem) :
    Except String String :=
  match content with
  | [] => .error "empty text field in Cohere API response"
  | c :: _ =>
    if c.text = "" then .error "empty text field in Cohere API response"
    else .ok c.text

/-! ## Gemini retry loop (`src/llm/gemini_client.go:171-276`)

The package-level `GenerateContentREST` wraps `client.Do` in a retry loop
of `maxRetries = 3` attempts with a doubling delay starting at 2 seconds
(the sleeps are timing side effects with no influence on the result and
are not modelled).  One attempt either returns a response (Go's
`http.Client.Do` returns `err == nil` for every received HTTP status,
including 4xx/5xx) or a transport error message. -/

/-- Outcome of one `client.Do` call: a received response with its HTTP
status, or a transport error carrying Go's error message. -/
inductive DoResult where
  | resp (status : Nat)
  | doErr (msg : String)
deriving Repr, DecidableEq

/-- The three transport error messages the Gemini client classifies as
retryable timeouts (`gemini_client.go:218-220`). -/
def isGeminiTimeoutMsg (m : String) : Bool :=
  m == "context deadline exceeded" ||
  m == "Client.Timeout exceeded while awaiting headers" ||
  m == "net/http: timeout awaiting response headers"

/-- Classified call failure of the Gemini client. -/
inductive GeminiCallError where
  | nonOkStatus (status : Nat)
  | allAttemptsFailed (lastErr : Option String)
  | ctxTimeout
deriving Repr, DecidableEq

/-- The mutable locals of the retry loop: `resp` (status of the last
received response, `none` when the last `client.Do` errored), `lastErr`,
and the number of attempts performed. -/
structure GeminiLoopState where
  resp : Option Nat
  lastErr : Option String
  attemptsUsed : Nat
deriving Repr, DecidableEq

/-- The retry loop of `gemini_client.go:180-253`.  Faithful control flow:
the loop **breaks as soon as `client.Do` returns `err == nil`**
(line 205-209), i.e. on any received HTTP response regardless of status;
only a transport error whose message matches `isGeminiTimeoutMsg` is
retried.  The `else if resp != nil` status switch of lines 227-245 (the
429/500/502/503/504 `shouldRetry` branch) is only reachable when
`err == nil`, which already broke out of the loop two branches earlier —
it is dead code and therefore has no counterpart in this translation.
The `select` on `ctx.Done()` at the top of each attempt is the
`ctxTimeout` early return. -/
def geminiDoLoop (ctxDone : Nat → Bool) (doAttempt : Nat → DoResult)
    (maxRetries : Nat) (attempt : Nat) (st : GeminiLoopState) :
    Except GeminiCallError GeminiLoopState :=
  if _h : attempt < maxRetries then
    if ctxDone attempt then .error .ctxTimeout
    else
      match doAttempt attempt with
      | .resp status =>
        .ok { resp := some status, lastErr := st.lastErr, attemptsUsed := attempt + 1 }
      | .doErr msg =>
        let st' : GeminiLoopState :=
          { resp := none, lastErr := some msg, attemptsUsed := attempt + 1 }
        if isGeminiTimeoutMsg msg ∧ attempt ≠ maxRetries - 1 then
          geminiDoLoop ctxDone doAttempt maxRetries (attempt + 1) st'
        else .ok st'
  else .ok st
termination_by maxRetries - attempt
decreasing_by omega

/-- The status-level outcome of one Gemini `GenerateContentREST` call
(`gemini_client.go:255-276`): after the loop, a missing response is the
all-attempts-failed error, a non-200 status is the non-OK error, and a
200 proceeds to body parsing.  The first component is the number of
attempts performed. -/
def geminiCallResult (ctxDone : Nat → Bool) (doAttempt : Nat → DoResult) :
    Nat × Except GeminiCallError Nat :=
  match geminiDoLoop ctxDone doAttempt 3 0 ⟨none, none, 0⟩ with
  | .error e => (0, .error e)
  | .ok st =>
    match st.resp with
    | none => (st.attemptsUsed, .error (.allAttemptsFailed st.lastErr))
    | some status =>
      if status ≠ 200 then (st.attemptsUsed, .error (.nonOkStatus status))
      else (st.attemptsUsed, .ok status)

/-- A transport that answers HTTP 429 on the first attempt and HTTP 200 on
every later one — the probe of the retryable-status test in the spec. -/
def transport429Once : Nat → DoResult :=
  fun i => if i = 0 then .resp 429 else .resp 200

/-- The members of a backend reply payload carrying every `LLMOutput`
field except the required `confidence`. -/
def noConfidenceFields : List (String × JValue) :=
  [("next_message", .str "hi"), ("reasoning", .str "r"),
   ("fulfilled", .jbool true), ("strategy", .str "direct"),
   ("safety_check", .str "passed"), ("error_logs", .arr [.str "e1"]),
   ("adaptation_notes", .str "n")]

/-- A backend reply payload carrying every `LLMOutput` field except the
required `confidence`. -/
def noConfidencePayload : JValue :=
  .obj noConfidenceFields

/-! ## The scenario run state machine (`src/agent/agent.go:82-170`)

`Agent.Run` acquires a Knovvu token, then loops
`for TurnCount < MaxTurns && !Fulfilled`, each iteration incrementing the
counter, generating the next action, optionally sending it to the
respondent and appending a history record, and breaking early on
fulfillment; after the loop it always generates exactly one judgment.
The outcomes of the outbound calls are supplied by oracles.  Turn
counters are Go `int16`; the increment is modelled with an explicit
16-bit two's-complement wrap. -/

/-- Two's-complement wrap of an `int16` result. -/
def wrap16 (n : Int) : Int :=
  (n + 32768) % 65536 - 32768

/-- `llm.HistoryItem` (`gemini_client.go:31-35`). -/
structure HistoryItem where
  turn : Int
  user : String
  assistant : String
deriving Repr, DecidableEq

/-- `llm.CurrentState` (`gemini_client.go:23-28`). -/
structure CurrentState where
  history : List HistoryItem
  turnCount : Int
  maxTurns : Int
  fulfilled : Bool
deriving Repr, DecidableEq

/-- The outbound-call outcomes available to one loop iteration: the
generation result and, consulted only when the proposed utterance is
non-empty, the respondent transport result (`SendKnovvuMessage`'s
`*KnovvuResponse` and error). -/
structure TurnOracle where
  llmResult : Except String LLMOutput
  knovvuResult : Except String (Option KnovvuResponse)

/-- Observable calls of one run, used to state when the judgment
generation happens. -/
inductive AgentEvent where
  | llmCall (turn : Int)
  | knovvuCall (turn : Int)
  | judgeCall
deriving Repr, DecidableEq

/-- One iteration of the turn loop (`agent.go:92-152`), entered when
`TurnCount < MaxTurns && !Fulfilled` holds: increment `TurnCount`, call
the generator, adopt its `Fulfilled` flag, and when the proposed
utterance is non-empty send it to the respondent and append a
`HistoryItem` with the (post-increment) turn index, the utterance and the
derived reply text.  An empty utterance is counted but appends nothing
and makes no transport call.  Generation failure and transport failure
abort the run with an error. -/
def stepTurn (o : TurnOracle) (s : CurrentState) :
    List AgentEvent × Except String CurrentState :=
  let s1 : CurrentState := { s with turnCount := wrap16 (s.turnCount + 1) }
  match o.llmResult with
  | .error e => ([.llmCall s1.turnCount], .error ("failed to generate content from LLM: " ++ e))
  | .ok out =>
    let s2 : CurrentState := { s1 with fulfilled := out.fulfilled }
    if out.nextMessage = "" then
      ([.llmCall s1.turnCount], .ok s2)
    else
      match o.knovvuResult with
      | .error _ =>
        ([.llmCall s1.turnCount, .knovvuCall s1.turnCount],
         .error "failed to send message to Knovvu")
      | .ok kresp =>
        ([.llmCall s1.turnCount, .knovvuCall s1.turnCount],
         .ok { s2 with history :=
            s2.history ++ [⟨s2.turnCount, out.nextMessage, deriveVaResponse kresp⟩] })

/-- Result of running the turn loop: the outbound-call events, the state
observed after each completed iteration, and the final state or the
run-fatal error. -/
structure LoopResult where
  events : List AgentEvent
  observed : List CurrentState
  result : Except String CurrentState
deriving Repr

/-- The turn loop `for TurnCount < MaxTurns && !Fulfilled` of
`agent.go:91-153`.  `i` numbers the iterations (indexing the oracle) and
`fuel` bounds them; `agentRun` passes `fuel = (MaxTurns - TurnCount)⁺`,
which the Go loop never exceeds since each iteration increments
`TurnCount` by one.  After a successful iteration the loop breaks when
the adopted `Fulfilled` flag is set (`agent.go:149-152`). -/
def runLoop (env : Nat → TurnOracle) : Nat → Nat → CurrentState → LoopResult
  | _, 0, s => ⟨[], [], .ok s⟩
  | i, fuel + 1, s =>
    if s.turnCount < s.maxTurns ∧ s.fulfilled = false then
      match stepTurn (env i) s with
      | (evs, .error e) => ⟨evs, [], .error e⟩
      | (evs, .ok s') =>
        if s'.fulfilled then ⟨evs, [s'], .ok s'⟩
        else ⟨evs ++ (runLoop env (i + 1) fuel s').events,
              s' :: (runLoop env (i + 1) fuel s').observed,
              (runLoop env (i + 1) fuel s').result⟩
    else ⟨[], [], .ok s⟩

/-- What `Agent.Run` returns to its caller: the final state pointer and
judgment (both `nil` on every error path) and the error, together with
the event/observation record of the run. -/
structure RunOutput where
  state : Option CurrentState
  judgment : Option JudgmentResult
  err : Option String
  events : List AgentEvent
  observed : List CurrentState
deriving Repr

/-- `Agent.Run` (`agent.go:82-170`): token acquisition failure returns
`(nil, nil, err)` before the loop; a loop error returns `(nil, nil, err)`;
otherwise `GenerateJudgmentREST` is called exactly once, its failure
returns `(nil, nil, err)`, and its success returns the final state and
the judgment. -/
def agentRun (tokenRes : Except String String) (env : Nat → TurnOracle)
    (judgeRes : Except String JudgmentResult) (s0 : CurrentState) : RunOutput :=
  match tokenRes with
  | .error e => ⟨none, none, some ("failed to get Knovvu token: " ++ e), [], []⟩
  | .ok _ =>
    match (runLoop env 0 (s0.maxTurns - s0.turnCount).toNat s0).result with
    | .error e =>
      ⟨none, none, some e,
       (runLoop env 0 (s0.maxTurns - s0.turnCount).toNat s0).events,
       (runLoop env 0 (s0.maxTurns - s0.turnCount).toNat s0).observed⟩
    | .ok s =>
      match judgeRes with
      | .error e =>
        ⟨none, none, some ("failed to generate Judgement Results from LLM: " ++ e),
         (runLoop env 0 (s0.maxTurns - s0.turnCount).toNat s0).events ++ [.judgeCall],
         (runLoop env 0 (s0.maxTurns - s0.turnCount).toNat s0).observed⟩
      | .ok j =>
        ⟨some s, some j, none,
         (runLoop env 0 (s0.maxTurns - s0.turnCount).toNat s0).events ++ [.judgeCall],
         (runLoop env 0 (s0.maxTurns - s0.turnCount).toNat s0).observed⟩

/-- The contiguous turn-index sequence `1..n`. -/
def turnSeq (n : Nat) : List Int :=
  (List.range n).map (fun k => (k : Int) + 1)

/-! ## The parallel scheduler (`src/agent/agent.go:173-224`)

`ParallelRun` rejects a scenario/expected-outcome length mismatch up
front, then has 5 workers pull indices from a jobs channel, each running
a sub-agent from the fixed initial state `{[], 0, 10, false}`, and a
collection loop that receives one `(idx, state, err)` triple per scenario
and stores both by `idx`.  The channel's nondeterministic completion
order is a parameter (`completionOrder`); worker/channel semantics
guarantee it is a permutation of the scenario indices, which the
scheduler theorems take as a hypothesis. -/

/-- The fixed per-scenario initial state built by each worker
(`agent.go:192-197`). -/
def parallelInitState : CurrentState :=
  ⟨[], 0, 10, false⟩

/-- The per-index outcome of `subAgent.Run()` as consumed by the
collector: the returned state pointer and error. -/
def runOutcome (tokenRes : Nat → Except String String) (env : Nat → Nat → TurnOracle)
    (judgeRes : Nat → Except String JudgmentResult) (i : Nat) :
    Option CurrentState × Option String :=
  let o := agentRun (tokenRes i) (env i) (judgeRes i) parallelInitState
  (o.state, o.err)

/-- The collection loop (`agent.go:217-221`): each received triple writes
the result and the error slot at its original index. -/
def collectLoop :
    List (Nat × Option CurrentState × Option String) →
    List (Option CurrentState) → List (Option String) →
    List (Option CurrentState) × List (Option String)
  | [], results, errs => (results, errs)
  | (idx, st, er) :: rest, results, errs =>
    collectLoop rest (results.set idx st) (errs.set idx er)

/-- `Agent.ParallelRun` (`agent.go:173-224`): `nil` results plus a single
mismatch error when the input lists differ in length; otherwise result
and error slices of length `n` initialised to `nil` and filled by the
collection loop in completion order. -/
def parallelRun (scenarios expectedOutcomes : List String)
    (tokenRes : Nat → Except String String) (env : Nat → Nat → TurnOracle)
    (judgeRes : Nat → Except String JudgmentResult) (completionOrder : List Nat) :
    Option (List (Option CurrentState)) × List (Option String) :=
  if scenarios.length ≠ expectedOutcomes.length then
    (none, [some "scenarios and expectedOutcomes must have the same length"])
  else
    let n := scenarios.length
    let completions :=
      completionOrder.map (fun i => (i, runOutcome tokenRes env judgeRes i))
    let filled := collectLoop completions (List.replicate n none) (List.replicate n none)
    (some filled.1, filled.2)

/-! ## Concrete run fixtures used by witnesses and counterexamples -/

/-- A generation result proposing a non-empty utterance, not fulfilled. -/
def plainOut : LLMOutput :=
  ⟨"hi", "because", false, "high", "direct", "passed", [], ""⟩

/-- A generation result proposing an empty utterance, not fulfilled. -/
def emptyMsgOut : LLMOutput :=
  ⟨"", "wait", false, "high", "direct", "passed", [], ""⟩

/-- A generation result proposing a non-empty utterance and declaring the
scenario fulfilled. -/
def doneOut : LLMOutput :=
  ⟨"done", "goal met", true, "high", "direct", "passed", [], ""⟩

/-- A concrete judgment value. -/
def cJudge : JudgmentResult :=
  ⟨"pass", "high", "goal reached", 1, 1⟩

/-- An always-succeeding oracle that never fulfills. -/
def steadyEnv : Nat → TurnOracle :=
  fun _ => ⟨.ok plainOut, .ok (some ⟨"yo", []⟩)⟩

/-- An always-succeeding oracle that fulfills on the first turn. -/
def fulfillEnv : Nat → TurnOracle :=
  fun _ => ⟨.ok doneOut, .ok (some ⟨"yo", []⟩)⟩

/-- An oracle whose first turn proposes an empty utterance and whose
second proposes a non-empty one. -/
def gapEnv : Nat → TurnOracle :=
  fun i => if i = 0 then ⟨.ok emptyMsgOut, .ok (some ⟨"z", []⟩)⟩ else steadyEnv i

/-- An oracle whose first turn succeeds and whose second generation call
fails. -/
def failEnv : Nat → TurnOracle :=
  fun i => if i = 0 then steadyEnv i else ⟨.error "boom", .ok none⟩

/-- The final state of a 2-turn-budget run over `steadyEnv`. -/
def steadyFinal : CurrentState :=
  ⟨[⟨1, "hi", "yo"⟩, ⟨2, "hi", "yo"⟩], 2, 2, false⟩

/-- The state observed after the single turn of a run over `fulfillEnv`. -/
def fulfilledFinal : CurrentState :=
  ⟨[⟨1, "done", "yo"⟩], 1, 3, true⟩

/-- Per-scenario token oracle used by the scheduler witness. -/
def constTok : Nat → Except String String := fun _ => .ok "t"

/-- Per-scenario turn oracle used by the scheduler witness. -/
def constFulfillEnv : Nat → Nat → TurnOracle := fun _ => fulfillEnv

/-- Per-scenario judgment oracle used by the scheduler witness. -/
def constJudge : Nat → Except String JudgmentResult := fun _ => .ok cJudge

/-! ## Helper lemmas about the run loop -/

/-- The 16-bit wrap is the identity on in-range values; all reachable
turn counters stay in range because the loop guard bounds them by
`MaxTurns ≤ 32767`. -/
theorem wrap16_id (n : Int) (h1 : -32768 ≤ n) (h2 : n ≤ 32767) : wrap16 n = n := by
  unfold wrap16
  omega

/-- Shape of a successful loop iteration: the generator succeeded, the
turn counter advanced by one wrapped increment, the budget is unchanged,
the fulfilled flag is the generator's, and the history either is
unchanged (empty utterance) or gained exactly one record carrying the new
turn index. -/
theorem stepTurn_ok_shape (o : TurnOracle) (s : CurrentState) (evs : List AgentEvent)
    (s' : CurrentState) (h : stepTurn o s = (evs, .ok s')) :
    ∃ out, o.llmResult = .ok out ∧
      s'.turnCount = wrap16 (s.turnCount + 1) ∧
      s'.maxTurns = s.maxTurns ∧
      s'.fulfilled = out.fulfilled ∧
      ((out.nextMessage = "" ∧ s'.history = s.history) ∨
       (out.nextMessage ≠ "" ∧ ∃ va,
         s'.history = s.history ++ [⟨wrap16 (s.turnCount + 1), out.nextMessage, va⟩])) := by
  rcases hl : o.llmResult with e | out
  · simp [stepTurn, hl] at h
  · refine ⟨out, rfl, ?_⟩
    by_cases hm : out.nextMessage = ""
    · simp [stepTurn, hl, hm] at h
      obtain ⟨-, h⟩ := h
      subst h
      simp [hm]
    · rcases hk : o.knovvuResult with e | k
      · simp [stepTurn, hl, hm, hk] at h
      · simp [stepTurn, hl, hm, hk] at h
        obtain ⟨-, h⟩ := h
        subst h
        simp [hm]

/-- A loop iteration emits only generation and transport events, never a
judgment event. -/
theorem stepTurn_no_judge (o : TurnOracle) (s : CurrentState) :
    AgentEvent.judgeCall ∉ (stepTurn o s).1 := by
  rcases hl : o.llmResult with e | out
  · simp [stepTurn, hl]
  · by_cases hm : out.nextMessage = ""
    · simp [stepTurn, hl, hm]
    · rcases hk : o.knovvuResult with e | k <;> simp [stepTurn, hl, hm, hk]

/-- The turn loop never emits a judgment event. -/
theorem runLoop_no_judge (env : Nat → TurnOracle) :
    ∀ (fuel i : Nat) (s : CurrentState),
      AgentEvent.judgeCall ∉ (runLoop env i fuel s).events := by
  intro fuel
  induction fuel with
  | zero => intro i s; simp [runLoop]
  | succ fuel ih =>
    intro i s
    rw [runLoop]
    split
    · rcases hst : stepTurn (env i) s with ⟨evs, r⟩
      have hne := stepTurn_no_judge (env i) s
      rw [hst] at hne
      cases r with
      | error e => simpa using hne
      | ok s' =>
        by_cases hf : s'.fulfilled
        · simp [hf]
          simpa using hne
        · simp [hf, List.mem_append]
          exact ⟨by simpa using hne, ih (i + 1) s'⟩
    · simp

/-- With an oracle whose generation and transport calls all succeed, every
loop iteration succeeds. -/
theorem stepTurn_ok_of_oracle (o : TurnOracle) (s : CurrentState)
    (hl : ∃ out, o.llmResult = .ok out) (hk : ∃ k, o.knovvuResult = .ok k) :
    ∃ evs s', stepTurn o s = (evs, .ok s') := by
  obtain ⟨out, hl⟩ := hl
  obtain ⟨k, hk⟩ := hk
  by_cases hm : out.nextMessage = "" <;> simp [stepTurn, hl, hk, hm]

/-- With an all-succeeding oracle the loop exits on one of its two
non-error paths. -/
theorem runLoop_ok_of_oracle (env : Nat → TurnOracle)
    (h : ∀ i, (∃ out, (env i).llmResult = .ok out) ∧
              (∃ k, (env i).knovvuResult = .ok k)) :
    ∀ (fuel i : Nat) (s : CurrentState),
      ∃ s', (runLoop env i fuel s).result = .ok s' := by
  intro fuel
  induction fuel with
  | zero => intro i s; exact ⟨s, rfl⟩
  | succ fuel ih =>
    intro i s
    rw [runLoop]
    split
    · obtain ⟨evs, s', hst⟩ := stepTurn_ok_of_oracle (env i) s (h i).1 (h i).2
      rw [hst]
      by_cases hf : s'.fulfilled
      · exact ⟨s', by simp [hf]⟩
      · simpa [hf] using ih (i + 1) s'
    · exact ⟨s, rfl⟩

/-- The loop invariant: a non-negative turn counter bounded by the budget
`m`, which itself fits in an `int16`. -/
def StateInv (m : Int) (s : CurrentState) : Prop :=
  0 ≤ s.turnCount ∧ s.turnCount ≤ s.maxTurns ∧ s.maxTurns = m ∧ m ≤ 32767

/-- Preservation of `StateInv` by every observed and final loop state. -/
theorem runLoop_inv (env : Nat → TurnOracle) (m : Int) :
    ∀ (fuel i : Nat) (s : CurrentState), StateInv m s →
      (∀ t ∈ (runLoop env i fuel s).observed, StateInv m t) ∧
      (∀ t, (runLoop env i fuel s).result = .ok t → StateInv m t) := by
  intro fuel
  induction fuel with
  | zero =>
    intro i s hs
    refine ⟨by simp [runLoop], ?_⟩
    intro t ht
    simp [runLoop] at ht
    subst ht
    exact hs
  | succ fuel ih =>
    intro i s hs
    rw [runLoop]
    split
    · rename_i hcond
      rcases hst : stepTurn (env i) s with ⟨evs, r⟩
      cases r with
      | error e => simp
      | ok s' =>
        obtain ⟨out, -, hc, hmx, -, -⟩ := stepTurn_ok_shape (env i) s evs s' hst
        obtain ⟨hs0, hs1, hs2, hs3⟩ := hs
        have hw : wrap16 (s.turnCount + 1) = s.turnCount + 1 :=
          wrap16_id _ (by omega) (by omega)
        have hs' : StateInv m s' := by
          refine ⟨?_, ?_, ?_, hs3⟩
          · rw [hc, hw]; omega
          · rw [hc, hw, hmx]; omega
          · rw [hmx]; exact hs2
        by_cases hf : s'.fulfilled
        · refine ⟨?_, ?_⟩
          · intro t ht
            simp [hf] at ht
            subst ht
            exact hs'
          · intro t ht
            simp [hf] at ht
            subst ht
            exact hs'
        · obtain ⟨ihobs, ihres⟩ := ih (i + 1) s' hs'
          refine ⟨?_, ?_⟩
          · intro t ht
            simp [hf] at ht
            rcases ht with ht | ht
            · subst ht; exact hs'
            · exact ihobs t ht
          · intro t ht
            simp [hf] at ht
            exact ihres t ht
    · refine ⟨by simp, ?_⟩
      intro t ht
      simp at ht
      subst ht
      exact hs

/-- Unfolding: guard holds and the iteration fails. -/
theorem runLoop_succ_error (env : Nat → TurnOracle) (i fuel : Nat) (s : CurrentState)
    (evs : List AgentEvent) (e : String)
    (hcond : s.turnCount < s.maxTurns ∧ s.fulfilled = false)
    (hst : stepTurn (env i) s = (evs, .error e)) :
    runLoop env i (fuel + 1) s = ⟨evs, [], .error e⟩ := by
  rw [runLoop, if_pos hcond, hst]

/-- Unfolding: guard holds, the iteration succeeds and fulfills. -/
theorem runLoop_succ_fulfilled (env : Nat → TurnOracle) (i fuel : Nat) (s : CurrentState)
    (evs : List AgentEvent) (s' : CurrentState)
    (hcond : s.turnCount < s.maxTurns ∧ s.fulfilled = false)
    (hst : stepTurn (env i) s = (evs, .ok s')) (hf : s'.fulfilled = true) :
    runLoop env i (fuel + 1) s = ⟨evs, [s'], .ok s'⟩ := by
  rw [runLoop, if_pos hcond, hst]
  simp [hf]

/-- Unfolding: guard holds, the iteration succeeds without fulfilling. -/
theorem runLoop_succ_continue (env : Nat → TurnOracle) (i fuel : Nat) (s : CurrentState)
    (evs : List AgentEvent) (s' : CurrentState)
    (hcond : s.turnCount < s.maxTurns ∧ s.fulfilled = false)
    (hst : stepTurn (env i) s = (evs, .ok s')) (hf : s'.fulfilled = false) :
    runLoop env i (fuel + 1) s =
      ⟨evs ++ (runLoop env (i + 1) fuel s').events,
       s' :: (runLoop env (i + 1) fuel s').observed,
       (runLoop env (i + 1) fuel s').result⟩ := by
  rw [runLoop, if_pos hcond, hst]
  simp [hf]

/-- Unfolding: the guard fails and the loop exits at once. -/
theorem runLoop_stop (env : Nat → TurnOracle) (i fuel : Nat) (s : CurrentState)
    (hcond : ¬(s.turnCount < s.maxTurns ∧ s.fulfilled = false)) :
    runLoop env i (fuel + 1) s = ⟨[], [], .ok s⟩ := by
  rw [runLoop, if_neg hcond]

/-- A fulfilled observed state is the last observed state, and the loop's
final result is exactly that state: the loop breaks on fulfillment. -/
theorem runLoop_fulfilled_last (env : Nat → TurnOracle) :
    ∀ (fuel i : Nat) (s : CurrentState) (k : Nat) (st : CurrentState),
      (runLoop env i fuel s).observed[k]? = some st → st.fulfilled = true →
      k + 1 = (runLoop env i fuel s).observed.length ∧
      (runLoop env i fuel s).result = .ok st := by
  intro fuel
  induction fuel with
  | zero =>
    intro i s k st hk _
    simp [runLoop] at hk
  | succ fuel ih =>
    intro i s k st hk hful
    by_cases hcond : s.turnCount < s.maxTurns ∧ s.fulfilled = false
    · rcases hst : stepTurn (env i) s with ⟨evs, r⟩
      cases r with
      | error e =>
        rw [runLoop_succ_error env i fuel s evs e hcond hst] at hk
        simp at hk
      | ok s' =>
        by_cases hf : s'.fulfilled = true
        · rw [runLoop_succ_fulfilled env i fuel s evs s' hcond hst hf] at hk ⊢
          cases k with
          | zero =>
            simp at hk
            subst hk
            exact ⟨rfl, rfl⟩
          | succ k' => simp at hk
        · have hf' : s'.fulfilled = false := by simpa using hf
          rw [runLoop_succ_continue env i fuel s evs s' hcond hst hf'] at hk ⊢
          cases k with
          | zero =>
            simp at hk
            subst hk
            rw [hful] at hf'
            cases hf'
          | succ k' =>
            simp only [List.getElem?_cons_succ] at hk
            have h2 := ih (i + 1) s' k' st hk hful
            constructor
            · simpa using congrArg Nat.succ h2.1
            · simpa using h2.2
    · rw [runLoop_stop env i fuel s hcond] at hk
      simp at hk

/-- Appending one index extends the contiguous sequence by one. -/
theorem turnSeq_succ (n : Nat) : turnSeq (n + 1) = turnSeq n ++ [(n : Int) + 1] := by
  simp [turnSeq, List.range_succ]

/-- When every generation result proposes a non-empty utterance, the loop
preserves "the history's turn indices are exactly `1..turnCount`". -/
theorem runLoop_turnSeq (env : Nat → TurnOracle) (m : Int)
    (henv : ∀ i out, (env i).llmResult = .ok out → out.nextMessage ≠ "") :
    ∀ (fuel i : Nat) (s : CurrentState), StateInv m s →
      s.history.map HistoryItem.turn = turnSeq s.turnCount.toNat →
      ∀ t, (runLoop env i fuel s).result = .ok t →
        t.history.map HistoryItem.turn = turnSeq t.turnCount.toNat := by
  intro fuel
  induction fuel with
  | zero =>
    intro i s hs hhist t ht
    simp [runLoop] at ht
    subst ht
    exact hhist
  | succ fuel ih =>
    intro i s hs hhist t ht
    by_cases hcond : s.turnCount < s.maxTurns ∧ s.fulfilled = false
    · rcases hst : stepTurn (env i) s with ⟨evs, r⟩
      cases r with
      | error e =>
        rw [runLoop_succ_error env i fuel s evs e hcond hst] at ht
        simp at ht
      | ok s' =>
        obtain ⟨out, hout, hc, hmx, -, hhist'⟩ := stepTurn_ok_shape (env i) s evs s' hst
        obtain ⟨hs0, hs1, hs2, hs3⟩ := hs
        have hw : wrap16 (s.turnCount + 1) = s.turnCount + 1 :=
          wrap16_id _ (by omega) (by omega)
        have hmsg : out.nextMessage ≠ "" := henv i out hout
        rcases hhist' with ⟨hmsg', -⟩ | ⟨-, va, happ⟩
        · exact absurd hmsg' hmsg
        · have hs' : StateInv m s' := by
            refine ⟨?_, ?_, ?_, hs3⟩
            · rw [hc, hw]; omega
            · rw [hc, hw, hmx]; omega
            · rw [hmx]; exact hs2
          have hhist2 : s'.history.map HistoryItem.turn = turnSeq s'.turnCount.toNat := by
            rw [happ, hc, hw]
            have htn : (s.turnCount + 1).toNat = s.turnCount.toNat + 1 := by omega
            rw [htn, turnSeq_succ]
            simp [hhist]
            omega
          by_cases hf : s'.fulfilled = true
          · rw [runLoop_succ_fulfilled env i fuel s evs s' hcond hst hf] at ht
            simp at ht
            subst ht
            exact hhist2
          · have hf' : s'.fulfilled = false := by simpa using hf
            rw [runLoop_succ_continue env i fuel s evs s' hcond hst hf'] at ht
            exact ih (i + 1) s' hs' hhist2 t (by simpa using ht)
    · rw [runLoop_stop env i fuel s hcond] at ht
      simp at ht
      subst ht
      exact hhist

/-- Unfolding: a run whose token acquisition fails. -/
theorem agentRun_token_error (e : String) (env : Nat → TurnOracle)
    (judgeRes : Except String JudgmentResult) (s0 : CurrentState) :
    agentRun (.error e) env judgeRes s0 =
      ⟨none, none, some ("failed to get Knovvu token: " ++ e), [], []⟩ := rfl

/-- Unfolding: a run whose loop fails. -/
theorem agentRun_loop_error (tok : String) (env : Nat → TurnOracle)
    (judgeRes : Except String JudgmentResult) (s0 : CurrentState) (e : String)
    (h : (runLoop env 0 (s0.maxTurns - s0.turnCount).toNat s0).result = .error e) :
    agentRun (.ok tok) env judgeRes s0 =
      ⟨none, none, some e,
       (runLoop env 0 (s0.maxTurns - s0.turnCount).toNat s0).events,
       (runLoop env 0 (s0.maxTurns - s0.turnCount).toNat s0).observed⟩ := by
  rw [agentRun, h]

/-- Unfolding: a run whose loop exits normally and whose judgment call
fails. -/
theorem agentRun_judge_error (tok : String) (env : Nat → TurnOracle)
    (e : String) (s0 s : CurrentState)
    (h : (runLoop env 0 (s0.maxTurns - s0.turnCount).toNat s0).result = .ok s) :
    agentRun (.ok tok) env (.error e) s0 =
      ⟨none, none, some ("failed to generate Judgement Results from LLM: " ++ e),
       (runLoop env 0 (s0.maxTurns - s0.turnCount).toNat s0).events ++ [.judgeCall],
       (runLoop env 0 (s0.maxTurns - s0.turnCount).toNat s0).observed⟩ := by
  rw [agentRun, h]

/-- Unfolding: a fully successful run. -/
theorem agentRun_ok (tok : String) (env : Nat → TurnOracle)
    (j : JudgmentResult) (s0 s : CurrentState)
    (h : (runLoop env 0 (s0.maxTurns - s0.turnCount).toNat s0).result = .ok s) :
    agentRun (.ok tok) env (.ok j) s0 =
      ⟨some s, some j, none,
       (runLoop env 0 (s0.maxTurns - s0.turnCount).toNat s0).events ++ [.judgeCall],
       (runLoop env 0 (s0.maxTurns - s0.turnCount).toNat s0).observed⟩ := by
  rw [agentRun, h]

/-! ## Helper lemmas about the scheduler's collection loop -/

/-- The collection loop preserves the slot counts. -/
theorem collectLoop_length :
    ∀ (cs : List (Nat × Option CurrentState × Option String))
      (results : List (Option CurrentState)) (errs : List (Option String)),
      (collectLoop cs results errs).1.length = results.length ∧
      (collectLoop cs results errs).2.length = errs.length := by
  intro cs
  induction cs with
  | nil => intro results errs; exact ⟨rfl, rfl⟩
  | cons q rest ih =>
    intro results errs
    obtain ⟨idx, st, er⟩ := q
    have := ih (results.set idx st) (errs.set idx er)
    simpa [collectLoop] using this

/-- Slots no completion writes to keep their initial contents. -/
theorem collectLoop_get_unchanged :
    ∀ (cs : List (Nat × Option CurrentState × Option String))
      (results : List (Option CurrentState)) (errs : List (Option String))
      (i : Nat), (∀ p ∈ cs, p.1 ≠ i) →
      (collectLoop cs results errs).1[i]? = results[i]? ∧
      (collectLoop cs results errs).2[i]? = errs[i]? := by
  intro cs
  induction cs with
  | nil => intro results errs i _; exact ⟨rfl, rfl⟩
  | cons q rest ih =>
    intro results errs i h
    obtain ⟨idx, st, er⟩ := q
    have hne : idx ≠ i := h (idx, st, er) (by simp)
    have hrest : ∀ p ∈ rest, p.1 ≠ i := fun p hp => h p (by simp [hp])
    have := ih (results.set idx st) (errs.set idx er) i hrest
    rw [collectLoop]
    rw [this.1, this.2]
    constructor
    · exact List.getElem?_set_ne hne
    · exact List.getElem?_set_ne hne

/-- A slot every write to which carries the same value, and which is
written at least once, ends containing that value. -/
theorem collectLoop_get_written (v : Option CurrentState) (w : Option String) :
    ∀ (cs : List (Nat × Option CurrentState × Option String))
      (results : List (Option CurrentState)) (errs : List (Option String))
      (i : Nat),
      (∀ p ∈ cs, p.1 = i → p.2 = (v, w)) → (∃ p ∈ cs, p.1 = i) →
      i < results.length → i < errs.length →
      (collectLoop cs results errs).1[i]? = some v ∧
      (collectLoop cs results errs).2[i]? = some w := by
  intro cs
  induction cs with
  | nil =>
    intro results errs i _ hex _ _
    simp at hex
  | cons q rest ih =>
    intro results errs i hv hex hires hierrs
    obtain ⟨idx, st, er⟩ := q
    rw [collectLoop]
    by_cases hidx : idx = i
    · have hvw : (st, er) = (v, w) := hv (idx, st, er) (by simp) hidx
      have hstv : st = v := congrArg Prod.fst hvw
      have herw : er = w := congrArg Prod.snd hvw
      rw [hidx, hstv, herw]
      by_cases hex2 : ∃ p ∈ rest, p.1 = i
      · exact ih (results.set i v) (errs.set i w) i
          (fun p hp hpi => hv p (List.mem_cons_of_mem _ hp) hpi) hex2
          (by simpa using hires) (by simpa using hierrs)
      · push_neg at hex2
        have hun := collectLoop_get_unchanged rest (results.set i v) (errs.set i w) i
          (fun p hp => hex2 p hp)
        rw [hun.1, hun.2]
        constructor
        · exact List.getElem?_set_eq_of_lt v hires
        · exact List.getElem?_set_eq_of_lt w hierrs
    · have hrest : ∃ p ∈ rest, p.1 = i := by
        rcases hex with ⟨p, hp, hpi⟩
        rcases List.mem_cons.mp hp with hp | hp
        · subst hp
          exact absurd hpi hidx
        · exact ⟨p, hp, hpi⟩
      exact ih (results.set idx st) (errs.set idx er) i
        (fun p hp hpi => hv p (List.mem_cons_of_mem _ hp) hpi) hrest
        (by simpa using hires) (by simpa using hierrs)

/-- C6: a respondent reply that parsed successfully, has an empty `text`
field and carries one hero-card attachment with prompt "Pick one" and
buttons A/a and B/b yields exactly the incoming text
"Prompt: Pick one\nOptions:\n  - A (value: a)\n  - B (value: b)". -/
theorem hero_card_fallback_text :
    deriveVaResponse (some ⟨"", [heroPickOne]⟩) =
      "Prompt: Pick one\nOptions:\n  - A (value: a)\n  - B (value: b)" := by
  decide

/-- C10: on a 2xx Cohere chat response that parses with an empty message
content list, the next-action path performs an unguarded `Content[0]`
index (a runtime panic, modelled as `none`) while the judgment path on the
same shape returns the "empty text field" error — the guard is present in
`GenerateJudgmentREST` and absent in `GenerateContentREST`. -/
theorem cohere_empty_content_guard_asymmetry :
    cohereContentExtract [] = none ∧
    cohereJudgmentExtract [] = .error "empty text field in Cohere API response" :=
  ⟨rfl, rfl⟩

/-- C1 (failing input): a generation call whose first attempt yields
HTTP 429 and whose second attempt would yield HTTP 200 fails immediately
after exactly one attempt with the non-OK-status error — the 429 is never
retried, because the loop breaks on every received response before the
status-retry branch can run.  The claim (and the dead code's evident
intent) is that 429 is retried and the call succeeds within the
three-attempt budget. -/
theorem gemini_status_429_fails_without_retry :
    geminiCallResult (fun _ => false) transport429Once =
      (1, .error (.nonOkStatus 429)) := by
  rw [geminiCallResult, geminiDoLoop]
  simp [transport429Once]

/-- C7 (counterexample): a generation-backend payload that is missing the
required `confidence` field is decoded successfully — `json.Unmarshal`
leaves the absent field at its zero value `""` and reports no error, so
the generation call does not fail on this input. -/
theorem missing_confidence_parses_ok_counterexample :
    parseLLMOutput noConfidencePayload =
      .ok ⟨"hi", "r", true, "", "direct", "passed", ["e1"], "n"⟩ := by
  rfl

/-- C7 (amended): a backend reply payload with no `confidence` key decodes
without error, with the `confidence` field left as the empty string — in
particular it is never defaulted to "medium", but it is not rejected
either. -/
theorem missing_confidence_left_empty (fields : List (String × JValue))
    (out : LLMOutput) (h : jsonFieldGet fields "confidence" = none)
    (hok : parseLLMOutput (.obj fields) = .ok out) :
    out.confidence = "" ∧ out.confidence ≠ "medium" := by
  have hconf : jsonGetString fields "confidence" = .ok "" := by
    rw [jsonGetString, h]
  rw [parseLLMOutput] at hok
  repeat' split at hok
  all_goals simp_all
  all_goals
    cases hok
    simp_all [jsonGetString]

/-- Witness for `missing_confidence_left_empty` at the concrete
no-`confidence` payload. -/
theorem missing_confidence_left_empty_witness :
    jsonFieldGet noConfidenceFields "confidence" = none ∧
    (⟨"hi", "r", true, "", "direct", "passed", ["e1"], "n"⟩ : LLMOutput).confidence = "" ∧
    (⟨"hi", "r", true, "", "direct", "passed", ["e1"], "n"⟩ : LLMOutput).confidence ≠ "medium" :=
  ⟨by rfl,
   missing_confidence_left_empty noConfidenceFields
     ⟨"hi", "r", true, "", "direct", "passed", ["e1"], "n"⟩ (by rfl) (by rfl)⟩


/-- C3: in every run whose credential acquisition succeeds and whose
generation and transport calls all succeed, the judgment generation is
invoked exactly once, and only after the turn loop has exited: the event
trace is the loop's judgment-free events followed by precisely one
judgment event.  The statement covers both non-error exit paths
(fulfillment and budget exhaustion) and runs whose loop body never
executes. -/
theorem judgment_called_exactly_once_after_loop
    (tok : String) (env : Nat → TurnOracle) (j : JudgmentResult) (s0 : CurrentState)
    (henv : ∀ i, (∃ out, (env i).llmResult = .ok out) ∧
                 (∃ k, (env i).knovvuResult = .ok k)) :
    ∃ pre, (agentRun (.ok tok) env (.ok j) s0).events = pre ++ [AgentEvent.judgeCall] ∧
      AgentEvent.judgeCall ∉ pre ∧
      (agentRun (.ok tok) env (.ok j) s0).events.count AgentEvent.judgeCall = 1 ∧
      (agentRun (.ok tok) env (.ok j) s0).err = none := by
  obtain ⟨s, hs⟩ :=
    runLoop_ok_of_oracle env henv (s0.maxTurns - s0.turnCount).toNat 0 s0
  rw [agentRun_ok tok env j s0 s hs]
  refine ⟨(runLoop env 0 (s0.maxTurns - s0.turnCount).toNat s0).events, rfl,
    runLoop_no_judge env _ 0 s0, ?_, rfl⟩
  rw [List.count_append, List.count_eq_zero.mpr (runLoop_no_judge env _ 0 s0)]
  simp

/-- Witness for `judgment_called_exactly_once_after_loop` on a run whose
loop body never executes (`maxTurns = 0`). -/
theorem judgment_called_exactly_once_after_loop_witness :
    (∀ i, (∃ out, (steadyEnv i).llmResult = .ok out) ∧
          (∃ k, (steadyEnv i).knovvuResult = .ok k)) ∧
    (∃ pre, (agentRun (.ok "t") steadyEnv (.ok cJudge) ⟨[], 0, 0, false⟩).events =
        pre ++ [AgentEvent.judgeCall] ∧
      AgentEvent.judgeCall ∉ pre ∧
      (agentRun (.ok "t") steadyEnv (.ok cJudge)
        ⟨[], 0, 0, false⟩).events.count AgentEvent.judgeCall = 1 ∧
      (agentRun (.ok "t") steadyEnv (.ok cJudge) ⟨[], 0, 0, false⟩).err = none) :=
  ⟨fun _ => ⟨⟨plainOut, rfl⟩, ⟨some ⟨"yo", []⟩, rfl⟩⟩,
   judgment_called_exactly_once_after_loop "t" steadyEnv cJudge ⟨[], 0, 0, false⟩
     (fun _ => ⟨⟨plainOut, rfl⟩, ⟨some ⟨"yo", []⟩, rfl⟩⟩)⟩

/-- C4: in every run started with `turnCount = 0` and a positive turn
budget (an `int16`, hence at most 32767), the turn counter never exceeds
the budget — at every state observed after an iteration and in the final
reported state. -/
theorem turn_count_never_exceeds_budget
    (tokenRes : Except String String) (env : Nat → TurnOracle)
    (judgeRes : Except String JudgmentResult) (s0 : CurrentState)
    (h0 : s0.turnCount = 0) (h1 : 0 < s0.maxTurns) (h2 : s0.maxTurns ≤ 32767) :
    (∀ t ∈ (agentRun tokenRes env judgeRes s0).observed, t.turnCount ≤ s0.maxTurns) ∧
    (∀ st, (agentRun tokenRes env judgeRes s0).state = some st →
      st.turnCount ≤ s0.maxTurns) := by
  have hinv : StateInv s0.maxTurns s0 := ⟨by omega, by omega, rfl, h2⟩
  have hloop :=
    runLoop_inv env s0.maxTurns (s0.maxTurns - s0.turnCount).toNat 0 s0 hinv
  cases tokenRes with
  | error e =>
    rw [agentRun_token_error]
    exact ⟨by simp, by simp⟩
  | ok tok =>
    rcases hlr : (runLoop env 0 (s0.maxTurns - s0.turnCount).toNat s0).result with e | s
    · rw [agentRun_loop_error tok env judgeRes s0 e hlr]
      refine ⟨?_, by simp⟩
      intro t ht
      obtain ⟨-, ha, hb, -⟩ := hloop.1 t ht
      omega
    · cases judgeRes with
      | error e =>
        rw [agentRun_judge_error tok env e s0 s hlr]
        refine ⟨?_, by simp⟩
        intro t ht
        obtain ⟨-, ha, hb, -⟩ := hloop.1 t ht
        omega
      | ok j =>
        rw [agentRun_ok tok env j s0 s hlr]
        constructor
        · intro t ht
          obtain ⟨-, ha, hb, -⟩ := hloop.1 t ht
          omega
        · intro st hst
          simp at hst
          subst hst
          obtain ⟨-, ha, hb, -⟩ := hloop.2 s hlr
          omega

/-- Witness for `turn_count_never_exceeds_budget` on a 3-turn-budget run
that exhausts its budget. -/
theorem turn_count_never_exceeds_budget_witness :
    ((⟨[], 0, 3, false⟩ : CurrentState).turnCount = 0 ∧
     (0 : Int) < (⟨[], 0, 3, false⟩ : CurrentState).maxTurns ∧
     (⟨[], 0, 3, false⟩ : CurrentState).maxTurns ≤ 32767) ∧
    (∀ t ∈ (agentRun (.ok "t") steadyEnv (.ok cJudge) ⟨[], 0, 3, false⟩).observed,
      t.turnCount ≤ (⟨[], 0, 3, false⟩ : CurrentState).maxTurns) ∧
    (∀ st, (agentRun (.ok "t") steadyEnv (.ok cJudge) ⟨[], 0, 3, false⟩).state = some st →
      st.turnCount ≤ (⟨[], 0, 3, false⟩ : CurrentState).maxTurns) :=
  ⟨⟨rfl, by decide, by decide⟩,
   turn_count_never_exceeds_budget (.ok "t") steadyEnv (.ok cJudge)
     ⟨[], 0, 3, false⟩ rfl (by decide) (by decide)⟩

/-- C5: once `fulfilled` becomes true the loop is terminal — a fulfilled
state observed after some iteration is the last observed state (no
further iterations execute and no further `Turn` is appended), and any
final state reported by the run is that very state, so the flag is never
reset to false before judgment. -/
theorem fulfilled_is_terminal
    (tokenRes : Except String String) (env : Nat → TurnOracle)
    (judgeRes : Except String JudgmentResult) (s0 : CurrentState)
    (k : Nat) (st : CurrentState)
    (hk : (agentRun tokenRes env judgeRes s0).observed[k]? = some st)
    (hful : st.fulfilled = true) :
    k + 1 = (agentRun tokenRes env judgeRes s0).observed.length ∧
    (∀ t, (agentRun tokenRes env judgeRes s0).state = some t → t = st) := by
  cases tokenRes with
  | error e =>
    rw [agentRun_token_error] at hk
    simp at hk
  | ok tok =>
    rcases hlr : (runLoop env 0 (s0.maxTurns - s0.turnCount).toNat s0).result with e | s
    · rw [agentRun_loop_error tok env judgeRes s0 e hlr] at hk ⊢
      have h2 := runLoop_fulfilled_last env _ 0 s0 k st hk hful
      exact ⟨h2.1, by simp⟩
    · cases judgeRes with
      | error e =>
        rw [agentRun_judge_error tok env e s0 s hlr] at hk ⊢
        have h2 := runLoop_fulfilled_last env _ 0 s0 k st hk hful
        exact ⟨h2.1, by simp⟩
      | ok j =>
        rw [agentRun_ok tok env j s0 s hlr] at hk ⊢
        have h2 := runLoop_fulfilled_last env _ 0 s0 k st hk hful
        refine ⟨h2.1, ?_⟩
        intro t ht
        simp at ht
        have hs2 := h2.2
        rw [hlr] at hs2
        have := Except.ok.inj hs2
        rw [← ht, this]

/-- Witness for `fulfilled_is_terminal`: a run fulfilled on turn 1 of a
3-turn budget observes exactly one state. -/
theorem fulfilled_is_terminal_witness :
    (agentRun (.ok "t") fulfillEnv (.ok cJudge) ⟨[], 0, 3, false⟩).observed[0]? =
      some fulfilledFinal ∧
    fulfilledFinal.fulfilled = true ∧
    0 + 1 = (agentRun (.ok "t") fulfillEnv (.ok cJudge) ⟨[], 0, 3, false⟩).observed.length :=
  ⟨by decide, by decide,
   (fulfilled_is_terminal (.ok "t") fulfillEnv (.ok cJudge) ⟨[], 0, 3, false⟩
     0 fulfilledFinal (by decide) (by decide)).1⟩

/-- C2 (counterexample): a 2-turn-budget run whose first generated
utterance is empty and whose second is non-empty completes with
`turnCount = 2` but records only the single turn index 2 — the empty
utterance's turn is counted yet appends no history record, so the
recorded indices are not the contiguous sequence `1..turnCount`. -/
theorem turn_indices_gap_counterexample :
    (agentRun (.ok "t") gapEnv (.ok cJudge) ⟨[], 0, 2, false⟩).state.map
        (fun s => s.history.map HistoryItem.turn) = some [2] ∧
    (agentRun (.ok "t") gapEnv (.ok cJudge) ⟨[], 0, 2, false⟩).state.map
        CurrentState.turnCount = some 2 ∧
    ([2] : List Int) ≠ turnSeq 2 :=
  ⟨by decide, by decide, by decide⟩

/-- C2 (amended): in every completed run in which each generated
utterance is non-empty, the turn indices recorded in the history form
exactly the contiguous sequence `1..turnCount` (no gaps, no duplicates);
a turn whose proposed utterance is empty is counted but appends no
record, leaving a gap. -/
theorem turn_indices_contiguous_when_all_nonempty
    (tokenRes : Except String String) (env : Nat → TurnOracle)
    (judgeRes : Except String JudgmentResult) (s0 : CurrentState)
    (h0 : s0.turnCount = 0) (h1 : 0 < s0.maxTurns) (h2 : s0.maxTurns ≤ 32767)
    (hh : s0.history = [])
    (henv : ∀ i out, (env i).llmResult = .ok out → out.nextMessage ≠ "") :
    ∀ st, (agentRun tokenRes env judgeRes s0).state = some st →
      st.history.map HistoryItem.turn = turnSeq st.turnCount.toNat := by
  intro st hst
  cases tokenRes with
  | error e =>
    rw [agentRun_token_error] at hst
    simp at hst
  | ok tok =>
    rcases hlr : (runLoop env 0 (s0.maxTurns - s0.turnCount).toNat s0).result with e | s
    · rw [agentRun_loop_error tok env judgeRes s0 e hlr] at hst
      simp at hst
    · cases judgeRes with
      | error e =>
        rw [agentRun_judge_error tok env e s0 s hlr] at hst
        simp at hst
      | ok j =>
        rw [agentRun_ok tok env j s0 s hlr] at hst
        simp at hst
        subst hst
        exact runLoop_turnSeq env s0.maxTurns henv _ 0 s0
          ⟨by omega, by omega, rfl, h2⟩ (by simp [hh, h0, turnSeq]) s hlr

/-- Witness for `turn_indices_contiguous_when_all_nonempty`: a 2-turn
exhausted run over `steadyEnv` records exactly the indices `[1, 2]`. -/
theorem turn_indices_contiguous_witness :
    (agentRun (.ok "t") steadyEnv (.ok cJudge) ⟨[], 0, 2, false⟩).state =
      some steadyFinal ∧
    steadyFinal.history.map HistoryItem.turn = turnSeq steadyFinal.turnCount.toNat :=
  ⟨by decide,
   turn_indices_contiguous_when_all_nonempty (.ok "t") steadyEnv (.ok cJudge)
     ⟨[], 0, 2, false⟩ rfl (by decide) (by decide) rfl
     (fun _ out h => by cases h; decide) steadyFinal (by decide)⟩

/-- C9 (counterexample): a run whose second generation call fails has
accumulated a partial `RunState` (one observed state holding one history
record), yet `Agent.Run` returns a `nil` state to the caller together
with the error — the partial RunState is not reported. -/
theorem failed_run_reports_nil_state_counterexample :
    (agentRun (.ok "t") failEnv (.ok cJudge) ⟨[], 0, 2, false⟩).state = none ∧
    (agentRun (.ok "t") failEnv (.ok cJudge) ⟨[], 0, 2, false⟩).err =
      some "failed to generate content from LLM: boom" ∧
    (agentRun (.ok "t") failEnv (.ok cJudge) ⟨[], 0, 2, false⟩).observed.map
      (fun s => s.history.length) = [1] :=
  ⟨by decide, by decide, by decide⟩

/-- C9 (amended): in every run in which credential acquisition, a
generation call or a transport call fails, the run stops without ever
invoking the judgment generation and reports the error to the caller —
but the state returned alongside it is `nil`, not the partial RunState. -/
theorem failed_run_no_judgment_nil_state
    (tokenRes : Except String String) (env : Nat → TurnOracle)
    (judgeRes : Except String JudgmentResult) (s0 : CurrentState)
    (h : (∃ e, tokenRes = .error e) ∨
         (∃ e, (runLoop env 0 (s0.maxTurns - s0.turnCount).toNat s0).result = .error e)) :
    (agentRun tokenRes env judgeRes s0).state = none ∧
    (agentRun tokenRes env judgeRes s0).judgment = none ∧
    AgentEvent.judgeCall ∉ (agentRun tokenRes env judgeRes s0).events ∧
    (agentRun tokenRes env judgeRes s0).err.isSome = true := by
  cases tokenRes with
  | error e =>
    rw [agentRun_token_error]
    exact ⟨rfl, rfl, by simp, rfl⟩
  | ok tok =>
    rcases h with ⟨e, he⟩ | ⟨e, he⟩
    · simp at he
    · rw [agentRun_loop_error tok env judgeRes s0 e he]
      exact ⟨rfl, rfl, by simpa using runLoop_no_judge env _ 0 s0, rfl⟩

/-- Witness for `failed_run_no_judgment_nil_state` at the concrete
failing run. -/
theorem failed_run_no_judgment_nil_state_witness :
    (runLoop failEnv 0 2 ⟨[], 0, 2, false⟩).result =
      Except.error "failed to generate content from LLM: boom" ∧
    (agentRun (.ok "t") failEnv (.ok cJudge) ⟨[], 0, 2, false⟩).state = none ∧
    (agentRun (.ok "t") failEnv (.ok cJudge) ⟨[], 0, 2, false⟩).judgment = none ∧
    AgentEvent.judgeCall ∉ (agentRun (.ok "t") failEnv (.ok cJudge) ⟨[], 0, 2, false⟩).events ∧
    (agentRun (.ok "t") failEnv (.ok cJudge) ⟨[], 0, 2, false⟩).err.isSome = true :=
  ⟨by rfl,
   failed_run_no_judgment_nil_state (.ok "t") failEnv (.ok cJudge) ⟨[], 0, 2, false⟩
     (Or.inr ⟨"failed to generate content from LLM: boom", by rfl⟩)⟩

/-- C8: a scheduler call with scenario and expected-outcome lists of equal
length `n`, whose workers deliver each scenario index exactly once in an
arbitrary completion order, returns exactly `n` result slots and `n`
error slots with the outcome of scenario `i` stored at index `i`
(independent of the completion order); a call with lists of unequal
length is rejected with an error before any scenario work starts. -/
theorem parallel_run_slots_stable
    (scenarios expectedOutcomes : List String)
    (tokenRes : Nat → Except String String) (env : Nat → Nat → TurnOracle)
    (judgeRes : Nat → Except String JudgmentResult)
    (completionOrder : List Nat)
    (hperm : completionOrder.Perm (List.range scenarios.length)) :
    (scenarios.length = expectedOutcomes.length →
      ∃ res errs,
        parallelRun scenarios expectedOutcomes tokenRes env judgeRes completionOrder =
          (some res, errs) ∧
        res.length = scenarios.length ∧ errs.length = scenarios.length ∧
        (∀ i, i < scenarios.length →
          res[i]? = some (runOutcome tokenRes env judgeRes i).1 ∧
          errs[i]? = some (runOutcome tokenRes env judgeRes i).2)) ∧
    (scenarios.length ≠ expectedOutcomes.length →
      parallelRun scenarios expectedOutcomes tokenRes env judgeRes completionOrder =
        (none, [some "scenarios and expectedOutcomes must have the same length"])) := by
  constructor
  · intro hlen
    rw [parallelRun, if_neg (by omega)]
    refine ⟨_, _, rfl, ?_, ?_, ?_⟩
    · rw [(collectLoop_length _ _ _).1]
      simp
    · rw [(collectLoop_length _ _ _).2]
      simp
    · intro i hi
      have hmem : i ∈ completionOrder :=
        hperm.mem_iff.mpr (List.mem_range.mpr hi)
      refine collectLoop_get_written
        (runOutcome tokenRes env judgeRes i).1 (runOutcome tokenRes env judgeRes i).2
        _ _ _ i ?_ ?_ (by simpa using hi) (by simpa using hi)
      · intro p hp hpi
        obtain ⟨jdx, hjdx, hpj⟩ := List.mem_map.mp hp
        subst hpj
        simp only at hpi
        subst hpi
        rfl
      · exact ⟨(i, runOutcome tokenRes env judgeRes i),
          List.mem_map.mpr ⟨i, hmem, rfl⟩, rfl⟩
  · intro hlen
    rw [parallelRun, if_pos hlen]

/-- Witness for `parallel_run_slots_stable`: two scenarios completing in
reversed order still land in their original slots. -/
theorem parallel_run_slots_stable_witness :
    List.Perm [1, 0] (List.range 2) ∧
    (∃ res errs,
      parallelRun ["a", "b"] ["x", "y"] constTok constFulfillEnv constJudge [1, 0] =
        (some res, errs) ∧
      res.length = 2 ∧ errs.length = 2 ∧
      (∀ i, i < 2 →
        res[i]? = some (runOutcome constTok constFulfillEnv constJudge i).1 ∧
        errs[i]? = some (runOutcome constTok constFulfillEnv constJudge i).2)) :=
  ⟨by decide,
   (parallel_run_slots_stable ["a", "b"] ["x", "y"] constTok constFulfillEnv constJudge
     [1, 0] (by decide)).1 rfl⟩
